import Mathlib

/-!
# Verification of the kw-scrapper EKW scraper against its specification

Shallow embedding of the repository in Lean 4:

* string utilities and the HTML cleaner from `app/utils/html_cleaner.py`,
* the Department II parser and the document-basis extractor from
  `app/core/scraper.py`,
* the lookup orchestration (`scrape_ekw`, `process_all_sections`,
  `process_section`) from `app/core/scraper.py` over an abstract page
  behaviour, and
* the browser session lifecycle from `app/utils/browser.py`.

Library behaviour that the code depends on (`html.unescape`, BeautifulSoup
tree operations, Playwright) is modelled explicitly; every such modelling
choice is recorded in the doc string of the corresponding definition.
-/

namespace KwScraper

/-! ## Python string primitives

Models of the Python string operations used by `html_cleaner.py`:
`re.sub(r'\s+', ' ', s)`, `str.strip()` and `html.unescape`.
-/

/-- ASCII model of the Python regex class `\s` and of the default
`str.strip()` character set: space, tab, newline, carriage return,
vertical tab, form feed.  (Python additionally matches some non-ASCII
Unicode whitespace; the development only ever exercises ASCII
whitespace, so the restriction is harmless.) -/
def isPyWs (c : Char) : Bool :=
  c = ' ' || c = '\t' || c = '\n' || c = '\r' || c = '\x0b' || c = '\x0c'

/-- Worker for `re.sub(r'\s+', ' ', s)`: `inRun` records whether the
previous character belonged to a whitespace run (in which case further
whitespace is absorbed into the single space already emitted). -/
def collapseWsAux : Bool → List Char → List Char
  | _, [] => []
  | inRun, c :: cs =>
    if isPyWs c then
      if inRun then collapseWsAux true cs
      else ' ' :: collapseWsAux true cs
    else c :: collapseWsAux false cs

/-- Model of `re.sub(r'\s+', ' ', s)`: every maximal run of whitespace is
replaced by a single space. -/
def collapseWs (l : List Char) : List Char := collapseWsAux false l

/-- Model of `str.strip()`: drop whitespace from both ends. -/
def stripWs (l : List Char) : List Char :=
  (((l.dropWhile isPyWs).reverse).dropWhile isPyWs).reverse

/-- Model of `html.unescape`, restricted to the named entities that the
repository's code and its serialized output can produce
(`amp`, `lt`, `gt`, `quot`); any other ampersand is left in place, which
agrees with Python on inputs avoiding other entity names.  Python's
`html.unescape` returns its argument unchanged when it contains no
ampersand, and so does this model. -/
def pyUnescape : List Char → List Char
  | [] => []
  | c :: rest =>
    if c = '&' then
      match rest with
      | 'a' :: 'm' :: 'p' :: ';' :: rest2 => '&' :: pyUnescape rest2
      | 'l' :: 't' :: ';' :: rest2 => '<' :: pyUnescape rest2
      | 'g' :: 't' :: ';' :: rest2 => '>' :: pyUnescape rest2
      | 'q' :: 'u' :: 'o' :: 't' :: ';' :: rest2 => '"' :: pyUnescape rest2
      | r => c :: pyUnescape r
    else c :: pyUnescape rest

/-- Model of `clean_text` (`app/utils/html_cleaner.py`, lines 11-33):
falsy (empty) input gives the empty string; otherwise decode HTML
entities, replace whitespace runs by single spaces, and strip the ends. -/
def cleanTextL (s : List Char) : List Char :=
  if s = [] then [] else stripWs (collapseWs (pyUnescape s))

/-- String-level wrapper of `cleanTextL`; this is the embedding of the
source function `clean_text`. -/
def clean_text (s : String) : String := ⟨cleanTextL s.data⟩

/-- Normal form of whitespace in a string: no leading whitespace, no
trailing whitespace, and no two consecutive whitespace characters. -/
def WsNormalized (l : List Char) : Prop :=
  (∀ c ∈ l.head?, isPyWs c = false) ∧
  (∀ c ∈ l.getLast?, isPyWs c = false) ∧
  l.Chain' (fun a b => ¬(isPyWs a = true ∧ isPyWs b = true))

instance (l : List Char) : Decidable (WsNormalized l) := by
  unfold WsNormalized; infer_instance

/-! ### Lemmas about the whitespace primitives -/

theorem collapseWsAux_true_head (l : List Char) :
    ∀ c ∈ (collapseWsAux true l).head?, isPyWs c = false := by
  induction l with
  | nil => simp [collapseWsAux]
  | cons c cs ih =>
    by_cases h : isPyWs c
    · simpa [collapseWsAux, h] using ih
    · simp [collapseWsAux, h]

theorem collapseWsAux_chain' (b : Bool) (l : List Char) :
    (collapseWsAux b l).Chain' (fun a b => ¬(isPyWs a = true ∧ isPyWs b = true)) := by
  induction l generalizing b with
  | nil => simp [collapseWsAux]
  | cons c cs ih =>
    by_cases h : isPyWs c
    · cases b with
      | true => simpa [collapseWsAux, h] using ih true
      | false =>
        simp only [collapseWsAux, h, if_true, if_false, Bool.false_eq_true]
        rw [List.chain'_cons']
        refine ⟨?_, ih true⟩
        intro y hy
        have := collapseWsAux_true_head cs y hy
        simp [this]
    · simp only [collapseWsAux, h, if_false, Bool.false_eq_true]
      rw [List.chain'_cons']
      refine ⟨?_, ih false⟩
      intro y hy
      simp [h]

theorem collapseWsAux_mem (b : Bool) (l : List Char) :
    ∀ c ∈ collapseWsAux b l, c = ' ' ∨ c ∈ l := by
  induction l generalizing b with
  | nil => simp [collapseWsAux]
  | cons c cs ih =>
    intro x hx
    by_cases h : isPyWs c
    · cases b with
      | true =>
        simp only [collapseWsAux, h, if_true] at hx
        rcases ih true x hx with h' | h'
        · exact Or.inl h'
        · exact Or.inr (List.mem_cons_of_mem _ h')
      | false =>
        simp only [collapseWsAux, h, if_true, if_false, Bool.false_eq_true,
          List.mem_cons] at hx
        rcases hx with rfl | hx
        · exact Or.inl rfl
        · rcases ih true x hx with h' | h'
          · exact Or.inl h'
          · exact Or.inr (List.mem_cons_of_mem _ h')
    · simp only [collapseWsAux, h, Bool.false_eq_true, if_false, List.mem_cons] at hx
      rcases hx with rfl | hx
      · exact Or.inr (List.mem_cons_self _ _)
      · rcases ih false x hx with h' | h'
        · exact Or.inl h'
        · exact Or.inr (List.mem_cons_of_mem _ h')

theorem dropWhile_head_not (p : Char → Bool) (l : List Char) :
    ∀ c ∈ (l.dropWhile p).head?, p c = false := by
  induction l with
  | nil => simp
  | cons c cs ih =>
    by_cases h : p c
    · simpa [List.dropWhile_cons, h] using ih
    · simp [List.dropWhile_cons, h]

theorem dropWhile_suffix (p : Char → Bool) (l : List Char) :
    (l.dropWhile p) <:+ l := by
  induction l with
  | nil => simp
  | cons c cs ih =>
    by_cases h : p c
    · rw [List.dropWhile_cons_of_pos h]
      exact ih.trans (List.suffix_cons c cs)
    · rw [List.dropWhile_cons_of_neg h]

theorem getLast?_dropWhile (p : Char → Bool) (l : List Char)
    (h : l.dropWhile p ≠ []) : (l.dropWhile p).getLast? = l.getLast? := by
  obtain ⟨t, ht⟩ := dropWhile_suffix p l
  calc (l.dropWhile p).getLast?
      = (t ++ l.dropWhile p).getLast? := (List.getLast?_append_of_ne_nil _ h).symm
    _ = l.getLast? := by rw [ht]

theorem stripWs_head (l : List Char) :
    ∀ c ∈ (stripWs l).head?, isPyWs c = false := by
  intro c hc
  unfold stripWs at hc
  rw [List.head?_reverse] at hc
  by_cases hnil : ((l.dropWhile isPyWs).reverse).dropWhile isPyWs = []
  · simp [hnil] at hc
  · rw [getLast?_dropWhile _ _ hnil, List.getLast?_reverse] at hc
    exact dropWhile_head_not _ _ c hc

theorem stripWs_getLast (l : List Char) :
    ∀ c ∈ (stripWs l).getLast?, isPyWs c = false := by
  intro c hc
  unfold stripWs at hc
  rw [List.getLast?_reverse] at hc
  exact dropWhile_head_not _ _ c hc

theorem chain'_of_suffix {R : Char → Char → Prop} {l₁ l₂ : List Char}
    (h : l₁ <:+ l₂) (hc : l₂.Chain' R) : l₁.Chain' R := by
  obtain ⟨t, ht⟩ := h
  subst ht
  exact hc.right_of_append

theorem stripWs_chain' {l : List Char}
    (hc : l.Chain' (fun a b => ¬(isPyWs a = true ∧ isPyWs b = true))) :
    (stripWs l).Chain' (fun a b => ¬(isPyWs a = true ∧ isPyWs b = true)) := by
  have hflip : (flip fun a b : Char => ¬(isPyWs a = true ∧ isPyWs b = true)) =
      (fun a b => ¬(isPyWs a = true ∧ isPyWs b = true)) := by
    funext a b
    simp [flip, and_comm]
  unfold stripWs
  rw [List.chain'_reverse, hflip]
  refine chain'_of_suffix (dropWhile_suffix _ _) ?_
  rw [List.chain'_reverse, hflip]
  exact chain'_of_suffix (dropWhile_suffix _ _) hc

/-- `clean_text` output is in whitespace normal form. -/
theorem cleanTextL_normalized (s : List Char) : WsNormalized (cleanTextL s) := by
  unfold cleanTextL
  by_cases h : s = []
  · simp [h, WsNormalized]
  · simp only [h, if_false]
    exact ⟨stripWs_head _, stripWs_getLast _, stripWs_chain' (collapseWsAux_chain' _ _)⟩

/-! ### Idempotence of `clean_text` on ampersand-free input -/

theorem pyUnescape_cons_of_ne {c : Char} (rest : List Char) (hc : ¬(c = '&')) :
    pyUnescape (c :: rest) = c :: pyUnescape rest := by
  rw [pyUnescape.eq_def]
  simp [hc]

theorem pyUnescape_no_amp (l : List Char) (h : '&' ∉ l) : pyUnescape l = l := by
  induction l with
  | nil => rfl
  | cons c cs ih =>
    have hc : ¬(c = '&') := fun hc => h (hc ▸ List.mem_cons_self _ _)
    have hcs : '&' ∉ cs := fun hx => h (List.mem_cons_of_mem _ hx)
    rw [pyUnescape_cons_of_ne cs hc, ih hcs]

theorem collapseWsAux_eq_of_head (l : List Char)
    (h : ∀ c ∈ l.head?, isPyWs c = false) :
    collapseWsAux true l = collapseWsAux false l := by
  cases l with
  | nil => rfl
  | cons c cs =>
    have : isPyWs c = false := h c rfl
    simp [collapseWsAux, this]

theorem collapseWs_fixed {l : List Char}
    (hc : l.Chain' (fun a b => ¬(isPyWs a = true ∧ isPyWs b = true)))
    (hsp : ∀ c ∈ l, isPyWs c = true → c = ' ') :
    collapseWs l = l := by
  unfold collapseWs
  induction l with
  | nil => rfl
  | cons c cs ih =>
    rw [List.chain'_cons'] at hc
    by_cases h : isPyWs c
    · have hcsp : c = ' ' := hsp c (List.mem_cons_self _ _) h
      have hhead : ∀ x ∈ cs.head?, isPyWs x = false := by
        intro x hx
        have := hc.1 x hx
        by_contra hx'
        exact this ⟨h, by simpa using hx'⟩
      rw [show collapseWsAux false (c :: cs) = ' ' :: collapseWsAux true cs by
            simp [collapseWsAux, h],
          collapseWsAux_eq_of_head cs hhead,
          ih hc.2 (fun x hx => hsp x (List.mem_cons_of_mem _ hx)), hcsp]
    · rw [show collapseWsAux false (c :: cs) = c :: collapseWsAux false cs by
            simp [collapseWsAux, h],
          ih hc.2 (fun x hx => hsp x (List.mem_cons_of_mem _ hx))]

theorem dropWhile_eq_self_of_head (p : Char → Bool) (l : List Char)
    (h : ∀ c ∈ l.head?, p c = false) : l.dropWhile p = l := by
  cases l with
  | nil => rfl
  | cons c cs => rw [List.dropWhile_cons_of_neg (by simp [h c rfl])]

theorem stripWs_fixed {l : List Char}
    (hh : ∀ c ∈ l.head?, isPyWs c = false)
    (hl : ∀ c ∈ l.getLast?, isPyWs c = false) :
    stripWs l = l := by
  unfold stripWs
  rw [dropWhile_eq_self_of_head _ _ hh,
      dropWhile_eq_self_of_head _ _ (by simpa [List.head?_reverse] using hl),
      List.reverse_reverse]

theorem collapseWs_sub (l : List Char) : ∀ c ∈ collapseWs l, c = ' ' ∨ c ∈ l :=
  collapseWsAux_mem false l

theorem stripWs_sub (l : List Char) : ∀ c ∈ stripWs l, c ∈ l := by
  intro c hc
  unfold stripWs at hc
  rw [List.mem_reverse] at hc
  have h1 := (dropWhile_suffix isPyWs ((l.dropWhile isPyWs).reverse)).subset hc
  rw [List.mem_reverse] at h1
  exact (dropWhile_suffix isPyWs l).subset h1

theorem cleanTextL_no_amp (s : List Char) (h : '&' ∉ s) : '&' ∉ cleanTextL s := by
  unfold cleanTextL
  by_cases hs : s = []
  · simp [hs]
  · simp only [hs, if_false]
    intro hmem
    have h1 := stripWs_sub _ _ hmem
    rcases collapseWs_sub _ _ h1 with h2 | h2
    · exact absurd h2 (by decide)
    · rw [pyUnescape_no_amp s h] at h2
      exact h h2

theorem collapseWsAux_ws_space (b : Bool) (l : List Char) :
    ∀ c ∈ collapseWsAux b l, isPyWs c = true → c = ' ' := by
  induction l generalizing b with
  | nil => simp [collapseWsAux]
  | cons x xs ih =>
    intro c hmem hws
    by_cases hx : isPyWs x
    · cases b with
      | true =>
        simp only [collapseWsAux, hx, if_true] at hmem
        exact ih true c hmem hws
      | false =>
        simp only [collapseWsAux, hx, if_true, if_false, Bool.false_eq_true,
          List.mem_cons] at hmem
        rcases hmem with rfl | hmem
        · rfl
        · exact ih true c hmem hws
    · simp only [collapseWsAux, hx, Bool.false_eq_true, if_false, List.mem_cons] at hmem
      rcases hmem with rfl | hmem
      · exact absurd hws (by simp [hx])
      · exact ih false c hmem hws

theorem cleanTextL_ws_space (s : List Char) :
    ∀ c ∈ cleanTextL s, isPyWs c = true → c = ' ' := by
  unfold cleanTextL
  by_cases hs : s = []
  · simp [hs]
  · simp only [hs, if_false]
    intro c hc hws
    exact collapseWsAux_ws_space false _ c (stripWs_sub _ _ hc) hws

/-- `clean_text` is idempotent on any input in whitespace normal form whose
whitespace is already plain spaces and which needs no entity decoding. -/
theorem cleanTextL_fixed {l : List Char} (hn : WsNormalized l)
    (hsp : ∀ c ∈ l, isPyWs c = true → c = ' ') (hamp : '&' ∉ l) :
    cleanTextL l = l := by
  unfold cleanTextL
  by_cases hl : l = []
  · simp [hl]
  · simp only [hl, if_false]
    rw [pyUnescape_no_amp l hamp, collapseWs_fixed hn.2.2 hsp,
        stripWs_fixed hn.1 hn.2.1]

/-- On ampersand-free input, `clean_text` is idempotent. -/
theorem cleanTextL_idem (s : List Char) (h : '&' ∉ s) :
    cleanTextL (cleanTextL s) = cleanTextL s :=
  cleanTextL_fixed (cleanTextL_normalized s) (cleanTextL_ws_space s) (cleanTextL_no_amp s h)

/-! ## C9: clean_text -/

/-- C9 (counterexample): `clean_text` is *not* idempotent on all strings.
Because `html.unescape` runs on every call, a doubly escaped entity is
decoded one further level at each application:
`clean_text "&amp;amp;" = "&amp;"` while a second application gives `"&"`. -/
theorem clean_text_idempotent_counterexample :
    clean_text (clean_text "&amp;amp;") ≠ clean_text "&amp;amp;" := by decide

/-- C9 (amended): `clean_text` output never has leading or trailing
whitespace nor two consecutive whitespace characters, empty input maps to
the empty string, and `clean_text` is idempotent on inputs containing no
ampersand (so no HTML entity); full idempotence fails because entity
unescaping is reapplied on every call. -/
theorem clean_text_normalized (s : String) :
    WsNormalized (clean_text s).data ∧
    clean_text "" = "" ∧
    ('&' ∉ s.data → clean_text (clean_text s) = clean_text s) := by
  refine ⟨cleanTextL_normalized s.data, rfl, fun h => ?_⟩
  show String.mk (cleanTextL (cleanTextL s.data)) = String.mk (cleanTextL s.data)
  exact congrArg String.mk (cleanTextL_idem s.data h)

/-- C9 witness: the amended theorem applied at the concrete input
containing doubled spaces and surrounding whitespace. -/
theorem clean_text_normalized_witness :
    WsNormalized (clean_text "  ala   ma\t kota ").data ∧
    clean_text "" = "" ∧
    ('&' ∉ "  ala   ma\t kota ".data →
      clean_text (clean_text "  ala   ma\t kota ") = clean_text "  ala   ma\t kota ") :=
  clean_text_normalized "  ala   ma\t kota "

/-! ## A functional model of the BeautifulSoup document tree

`html_cleaner.py` and `parse_dzial_ii` operate on documents parsed by
BeautifulSoup with the `html.parser` builder.  Nodes are text
(`NavigableString`), comments (`Comment`, a `NavigableString` subclass) or
elements with attributes and children.  A whole parsed document is
represented as a single element named `[document]`, mirroring the
`BeautifulSoup` object itself.
-/

/-- A BeautifulSoup tree node.  Attribute values are `Option String`, with
`none` for valueless attributes such as `disabled`. -/
inductive Node where
  | text (s : String) : Node
  | comment (s : String) : Node
  | elem (name : String) (attrs : List (String × Option String)) (children : List Node) : Node

/-- Attribute lookup (first occurrence wins, as in a parsed document):
`none` when the node is not an element or lacks the attribute,
`some v` when present with rendered value `v`. -/
def Node.attr (k : String) : Node → Option (Option String)
  | .elem _ attrs _ => (attrs.find? (fun p => p.1 = k)).map (fun p => p.2)
  | _ => none

/-- Split a `class` attribute value on whitespace, dropping empty pieces
(the standard multi-valued attribute semantics used by soupsieve). -/
def wsSplit (l : List Char) : List (List Char) :=
  (l.foldr (fun c acc =>
    if isPyWs c then [] :: acc
    else match acc with
      | [] => [[c]]
      | w :: ws => (c :: w) :: ws) []).filter (fun w => ¬w.isEmpty)

/-- The CSS class test `.cls`. -/
def Node.hasClass (cls : String) (n : Node) : Bool :=
  match n.attr "class" with
  | some (some v) => (wsSplit v.data).any (fun w => w = cls.data)
  | _ => false

/-- Element-with-given-tag-name test. -/
def isElemNamed (nm : String) : Node → Bool
  | .elem name _ _ => name = nm
  | _ => false

mutual
/-- Model of `get_text()` / `.text`: the concatenation of all string
descendants in document order.  Comments are `NavigableString`s, so their
content is included, as bs4 does. -/
def nodeText : Node → List Char
  | .text s => s.data
  | .comment s => s.data
  | .elem _ _ cs => nodesText cs

def nodesText : List Node → List Char
  | [] => []
  | n :: ns => nodeText n ++ nodesText ns
end

/-- String-valued `.text`. -/
def Node.textS (n : Node) : String := ⟨nodeText n⟩

mutual
/-- All strict descendants of a node, in document (preorder) order - the
search space of `find_all` / `select` on that node. -/
def descendants : Node → List Node
  | .elem _ _ cs => descList cs
  | _ => []

def descList : List Node → List Node
  | [] => []
  | n :: ns => n :: (descendants n ++ descList ns)
end

/-- Model of `tag.select(sel)` for the simple selectors the code uses:
all descendants satisfying the predicate, in document order. -/
def select (p : Node → Bool) (n : Node) : List Node :=
  (descendants n).filter p

/-- Model of the bs4 `.string` property: the single string child of a tag,
descending through single-child tags; `None` on zero or several children. -/
def Node.stringOf : Node → Option String
  | .text s => some s
  | .comment s => some s
  | .elem _ _ [c] => Node.stringOf c
  | .elem _ _ _ => none

/-- Python `str.strip()` at the `String` level. -/
def stripS (s : String) : String := ⟨stripWs s.data⟩

/-- Python dict assignment `d[k] = v` on an insertion-ordered
association list: overwrite in place if the key exists, else append. -/
def upsert (m : List (String × String)) (k v : String) : List (String × String) :=
  if m.any (fun p => p.1 = k) then
    m.map (fun p => if p.1 = k then (p.1, v) else p)
  else m ++ [(k, v)]

/-! ## C5: table extraction -/

/-- The selector `td.csDane`. -/
def isCsDaneTd (n : Node) : Bool := isElemNamed "td" n && n.hasClass "csDane"

/-- The selector `td.csBDane`. -/
def isCsBDaneTd (n : Node) : Bool := isElemNamed "td" n && n.hasClass "csBDane"

/-- The selector `table.tbOdpis`. -/
def isTbOdpisTable (n : Node) : Bool := isElemNamed "table" n && n.hasClass "tbOdpis"

/-- One row of the `extract_table_data` loop
(`app/utils/html_cleaner.py`, lines 88-119): key cells are the `td.csDane`
of the row, value cells the `td.csBDane`; a row with no value cell but at
least two key cells donates its second key cell as the value; rows without
a usable pair, or whose cleaned key is empty, are skipped. -/
def tableRowStep (acc : List (String × String)) (row : Node) : List (String × String) :=
  match select isCsDaneTd row, select isCsBDaneTd row with
  | [], _ => acc
  | k0 :: krest, vcellsRaw =>
    let kv : List Node × List Node :=
      match vcellsRaw, krest with
      | [], k1 :: _ => ([k0], [k1])
      | _, _ => (k0 :: krest, vcellsRaw)
    match kv with
    | (kc0 :: _, v0 :: _) =>
      let key := clean_text kc0.textS
      if key = "" then acc else upsert acc key (clean_text v0.textS)
    | (kc0 :: kc1 :: _, []) =>
      -- Python's `elif len(key_cells) > 1` arm; unreachable after the swap
      -- above, but translated faithfully
      let key := clean_text kc0.textS
      if key = "" then acc else upsert acc key (clean_text kc1.textS)
    | (_, _) => acc

/-- Model of `extract_table_data` (`app/utils/html_cleaner.py`, lines
63-124) on a parsed document: for each `table.tbOdpis`, fold
`tableRowStep` over its `tr` descendants and keep the non-empty
per-table dictionaries.  The `if not html_content: return []` guard
corresponds to the empty `[document]` element, which contains no table. -/
def extract_table_data (doc : Node) : List (List (String × String)) :=
  (select isTbOdpisTable doc).foldl (fun res tbl =>
    let td := (select (isElemNamed "tr") tbl).foldl tableRowStep []
    if td = [] then res else res ++ [td]) []

/-- One data row of the header-zip loop shared by
`parse_dzial_io` / `parse_dzial_isp` / `parse_dzial_iii` / `parse_dzial_iv`
(`app/core/scraper.py`, e.g. lines 396-408): cell texts are zipped with the
stripped header texts, cells beyond the header length are dropped. -/
def zipRowWithHeaders (headers cells : List String) : List (String × String) :=
  (headers.zip cells).foldl (fun acc p => upsert acc (stripS p.1) (stripS p.2)) []

/-- The per-table zip extraction of `parse_dzial_isp`: the first row is the
header record, each later row is zipped against it, and empty row
dictionaries are dropped. -/
def tableZipRecords : List (List String) → List (List (String × String))
  | [] => []
  | header :: dataRows =>
    dataRows.foldl (fun acc cells =>
      let rd := zipRowWithHeaders header cells
      if rd = [] then acc else acc ++ [rd]) []

/-- Model of the content assembly of `parse_dzial_isp`
(`app/core/scraper.py`, lines 373-412) over the cell-text matrix of each
`table.tabela-dane` on the live page: `property_data` accumulates the zip
records of every table, and is present only when at least one table
exists. -/
def parse_dzial_isp_content (tables : List (List (List String))) :
    List (String × List (List (String × String))) :=
  if tables.isEmpty then []
  else [("property_data", tables.foldl (fun acc rows => acc ++ tableZipRecords rows) [])]

/-- The synthetic header table of the claim, marked with the CSS classes
`extract_table_data` actually keys on: header row A B, data row 1 2. -/
def c5Table : Node :=
  .elem "table" [("class", some "tbOdpis")] [
    .elem "tr" [] [.elem "td" [("class", some "csDane")] [.text "A"],
                   .elem "td" [("class", some "csDane")] [.text "B"]],
    .elem "tr" [] [.elem "td" [("class", some "csDane")] [.text "1"],
                   .elem "td" [("class", some "csDane")] [.text "2"]]]

/-- The claim's synthetic table as written, without the portal's marker
classes. -/
def c5PlainTable : Node :=
  .elem "table" [] [
    .elem "tr" [] [.elem "td" [] [.text "A"], .elem "td" [] [.text "B"]],
    .elem "tr" [] [.elem "td" [] [.text "1"], .elem "td" [] [.text "2"]]]

/-- The empty parsed document. -/
def emptyDoc : Node := .elem "[document]" [] []

/-- C5 (counterexample): `extract_table_data` does not implement the
header-zip round trip.  On the synthetic header table it pairs the two
cells of each row (first `csDane` cell with second), yielding
one record with A mapped to B and 1 mapped to 2 - not the claimed
record mapping A to 1 and B to 2. -/
theorem extract_table_data_counterexample :
    extract_table_data (Node.elem "[document]" [] [c5Table]) = [[("A", "B"), ("1", "2")]] ∧
    extract_table_data (Node.elem "[document]" [] [c5Table]) ≠ [[("A", "1"), ("B", "2")]] := by
  decide

/-- C5 (amended): the header-zip round trip - header row A B zipped with
data row 1 2 giving the single record mapping A to 1 and B to 2 - is
performed by the department zip extraction of `parse_dzial_isp`, not by
`extract_table_data`; `extract_table_data` pairs key and value cells
within each row by their CSS classes, returns the empty list on a table
without those marker classes, on a header-less table and on empty input,
and both extractors are total (they never raise). -/
theorem table_extraction_amended :
    parse_dzial_isp_content [[["A", "B"], ["1", "2"]]] =
      [("property_data", [[("A", "1"), ("B", "2")]])] ∧
    extract_table_data (Node.elem "[document]" [] [c5PlainTable]) = [] ∧
    extract_table_data emptyDoc = [] ∧
    tableZipRecords [] = [] ∧
    tableZipRecords [[], ["1", "2"]] = [] := by
  decide

/-! ## C10: document-basis extraction (html_cleaner variant) -/

/-- Python's substring test `pat in s`. -/
def containsSub (pat : List Char) : List Char → Bool
  | [] => pat.isEmpty
  | c :: cs => pat.isPrefixOf (c :: cs) || containsSub pat cs

/-- The legal-basis title marker string. -/
def basisMarker : String := "DOKUMENTY BĘDĄCE PODSTAWĄ WPISU"

/-- The title-cell test of `extract_document_basis`
(`app/utils/html_cleaner.py`, line 198): a `td` of class `csTTytul` whose
bs4 `.string` is truthy and contains the marker. -/
def isBasisTitleTd (n : Node) : Bool :=
  isElemNamed "td" n && n.hasClass "csTTytul" &&
    (match n.stringOf with
     | some s => containsSub basisMarker.data s.data
     | none => false)

mutual
/-- Locate the first (document-order) basis-title cell below a node,
carrying the ancestor stack (nearest first).  Result: `none` when no such
cell exists, `some r` when one is found, where `r` is its nearest
ancestor `table` (the `find_parent('table')` of the source). -/
def findBasisInNode (ancestors : List Node) : Node → Option (Option Node)
  | .elem name attrs cs =>
    if isBasisTitleTd (.elem name attrs cs) then
      some (ancestors.find? (isElemNamed "table"))
    else findBasisInList (Node.elem name attrs cs :: ancestors) cs
  | _ => none

def findBasisInList (ancestors : List Node) : List Node → Option (Option Node)
  | [] => none
  | n :: rest =>
    match findBasisInNode ancestors n with
    | some r => some r
    | none => findBasisInList ancestors rest
end

/-- The selector `td[rowspan="2"]`. -/
def isRowspan2Td (n : Node) : Bool :=
  isElemNamed "td" n && n.attr "rowspan" = some (some "2")

/-- The selector `td.csTTytul`. -/
def isCsTTytulTd (n : Node) : Bool := isElemNamed "td" n && n.hasClass "csTTytul"

/-- The selector `td.csNDBDane`. -/
def isCsNDBDaneTd (n : Node) : Bool := isElemNamed "td" n && n.hasClass "csNDBDane"

/-- The selector `td.csDane:not([rowspan])`. -/
def isCsDaneNoRowspanTd (n : Node) : Bool :=
  isCsDaneTd n && (n.attr "rowspan").isNone

/-- The selector `td[rowspan]`. -/
def isTdWithRowspan (n : Node) : Bool :=
  isElemNamed "td" n && (n.attr "rowspan").isSome

/-- One row of the basis-table walk (`app/utils/html_cleaner.py`, lines
210-233): title rows are skipped; a `td[rowspan="2"]` closes the previous
entry and opens a new one keyed `basis_number` (plus `document_description`
from a `csNDBDane` cell when present); a plain `csDane` cell on a
rowspan-free row adds `journal_info` to the open entry. -/
def basisRowStep (st : List (List (String × String)) × List (String × String))
    (row : Node) : List (List (String × String)) × List (String × String) :=
  let out := st.1
  let current := st.2
  if !(select isCsTTytulTd row).isEmpty then (out, current)
  else
    let st2 : List (List (String × String)) × List (String × String) :=
      match (select isRowspan2Td row).head? with
      | some cell =>
        let out2 := if current.isEmpty then out else out ++ [current]
        let cur2 := [("basis_number", clean_text cell.textS)]
        let cur3 :=
          match (select isCsNDBDaneTd row).head? with
          | some d => upsert cur2 "document_description" (clean_text d.textS)
          | none => cur2
        (out2, cur3)
      | none => (out, current)
    match (select isCsDaneNoRowspanTd row).head? with
    | some j =>
      if !st2.2.isEmpty && (select isTdWithRowspan row).isEmpty then
        (st2.1, upsert st2.2 "journal_info" (clean_text j.textS))
      else st2
    | none => st2

/-- Model of `extract_document_basis` (`app/utils/html_cleaner.py`, lines
182-239) on a parsed document: find the basis-title cell, walk the rows of
its enclosing table, and close the trailing entry.  Empty input parses to
the empty `[document]`, which contains no title cell. -/
def extract_document_basis (doc : Node) : List (List (String × String)) :=
  match findBasisInNode [] doc with
  | none => []
  | some none => []
  | some (some table) =>
    let st := (select (isElemNamed "tr") table).foldl basisRowStep ([], [])
    if st.2.isEmpty then st.1 else st.1 ++ [st.2]

/-- A basis table whose `rowspan="2"` cell is empty: the code records an
entry whose `basis_number` value is the empty string. -/
def c10Doc : Node :=
  .elem "[document]" [] [
    .elem "table" [] [
      .elem "tr" [] [.elem "td" [("class", some "csTTytul")]
        [.text "DOKUMENTY BĘDĄCE PODSTAWĄ WPISU"]],
      .elem "tr" [] [.elem "td" [("rowspan", some "2")] []]]]

/-- C10 (counterexample): the html-cleaner `extract_document_basis` can
return an entry whose `basis_number` is the empty string - unlike the
scraper-side variant it has no `if basis_number:` guard - so not every
entry carries a non-empty `basis_number`. -/
theorem extract_document_basis_counterexample :
    extract_document_basis c10Doc = [[("basis_number", "")]] ∧
    ∃ e ∈ extract_document_basis c10Doc, ("basis_number", "") ∈ e := by
  decide

theorem upsert_preserves {m : List (String × String)} {k v k0 v0 : String}
    (hne : k0 ≠ k) (hm : (k0, v0) ∈ m) : (k0, v0) ∈ upsert m k v := by
  unfold upsert
  by_cases hc : m.any (fun p => p.1 = k)
  · simp only [hc, if_true]
    refine List.mem_map.mpr ⟨(k0, v0), hm, ?_⟩
    simp [hne]
  · simp only [hc, if_false, Bool.false_eq_true, List.mem_append]
    exact Or.inl hm

theorem findBasisInList_none (ancestors ns : List Node)
    (h : ∀ m ∈ descList ns, isBasisTitleTd m = false) :
    findBasisInList ancestors ns = none := by
  match ns with
  | [] => rfl
  | n :: rest =>
    have hmem : n ∈ descList (n :: rest) := by
      rw [descList]; exact List.mem_cons_self _ _
    have hn : findBasisInNode ancestors n = none := by
      match n with
      | .text s => rfl
      | .comment s => rfl
      | .elem name attrs cs =>
        have hhead := h _ hmem
        rw [findBasisInNode, if_neg (by simp [hhead])]
        refine findBasisInList_none _ cs (fun m hm => h m ?_)
        rw [descList]
        refine List.mem_cons_of_mem _ (List.mem_append_left _ ?_)
        rw [descendants]
        exact hm
    rw [findBasisInList, hn]
    refine findBasisInList_none _ rest (fun m hm => h m ?_)
    rw [descList]
    exact List.mem_cons_of_mem _ (List.mem_append_right _ hm)
termination_by sizeOf ns
decreasing_by
  all_goals (simp_wf <;> omega)

/-- The invariant of the basis-table walk: every closed entry, and the open
entry unless it is empty, contains the `basis_number` key. -/
theorem basisRowStep_invariant
    (st : List (List (String × String)) × List (String × String)) (row : Node)
    (h1 : ∀ e ∈ st.1, ∃ v, ("basis_number", v) ∈ e)
    (h2 : st.2 = [] ∨ ∃ v, ("basis_number", v) ∈ st.2) :
    (∀ e ∈ (basisRowStep st row).1, ∃ v, ("basis_number", v) ∈ e) ∧
    ((basisRowStep st row).2 = [] ∨ ∃ v, ("basis_number", v) ∈ (basisRowStep st row).2) := by
  obtain ⟨out, current⟩ := st
  unfold basisRowStep
  by_cases ht : (select isCsTTytulTd row).isEmpty
  · simp only [ht, Bool.not_true, Bool.false_eq_true, if_false]
    -- the rowspan branch
    set st2 : List (List (String × String)) × List (String × String) :=
      match (select isRowspan2Td row).head? with
      | some cell =>
        let out2 := if current.isEmpty then out else out ++ [current]
        let cur2 := [("basis_number", clean_text cell.textS)]
        let cur3 :=
          match (select isCsNDBDaneTd row).head? with
          | some d => upsert cur2 "document_description" (clean_text d.textS)
          | none => cur2
        (out2, cur3)
      | none => (out, current) with hst2
    have hst2inv : (∀ e ∈ st2.1, ∃ v, ("basis_number", v) ∈ e) ∧
        (st2.2 = [] ∨ ∃ v, ("basis_number", v) ∈ st2.2) := by
      rw [hst2]
      cases hr : (select isRowspan2Td row).head? with
      | none => exact ⟨h1, h2⟩
      | some cell =>
        dsimp only
        constructor
        · intro e he
          by_cases hcur : current.isEmpty
          · simp only [hcur, if_true] at he
            exact h1 e he
          · simp only [hcur, Bool.false_eq_true, if_false, List.mem_append,
              List.mem_singleton] at he
            rcases he with he | rfl
            · exact h1 e he
            · rcases h2 with h2 | h2
              · exact (hcur (by simp at h2; simp [h2])).elim
              · exact h2
        · right
          cases hd : (select isCsNDBDaneTd row).head? with
          | none => exact ⟨clean_text cell.textS, List.mem_singleton.mpr rfl⟩
          | some d =>
            refine ⟨clean_text cell.textS, upsert_preserves (by decide) ?_⟩
            exact List.mem_singleton.mpr rfl
    cases hj : (select isCsDaneNoRowspanTd row).head? with
    | none => exact hst2inv
    | some j =>
      dsimp only
      by_cases hcond : !st2.2.isEmpty && (select isTdWithRowspan row).isEmpty
      · simp only [hcond, if_true]
        refine ⟨hst2inv.1, Or.inr ?_⟩
        rcases hst2inv.2 with hnil | ⟨v, hv⟩
        · exfalso
          have := (Bool.and_eq_true _ _).mp hcond
          simp [hnil] at this
        · exact ⟨v, upsert_preserves (by decide) hv⟩
      · simp only [hcond, Bool.false_eq_true, if_false]
        exact hst2inv
  · simp only [ht, Bool.not_false, if_true]
    exact ⟨h1, h2⟩

theorem basisFold_invariant (rows : List Node)
    (st : List (List (String × String)) × List (String × String))
    (h1 : ∀ e ∈ st.1, ∃ v, ("basis_number", v) ∈ e)
    (h2 : st.2 = [] ∨ ∃ v, ("basis_number", v) ∈ st.2) :
    (∀ e ∈ (rows.foldl basisRowStep st).1, ∃ v, ("basis_number", v) ∈ e) ∧
    ((rows.foldl basisRowStep st).2 = [] ∨
      ∃ v, ("basis_number", v) ∈ (rows.foldl basisRowStep st).2) := by
  induction rows generalizing st with
  | nil => exact ⟨h1, h2⟩
  | cons r rs ih =>
    have := basisRowStep_invariant st r h1 h2
    exact ih _ this.1 this.2

/-- C10 (amended): every entry returned by the html-cleaner variant of
`extract_document_basis` contains the `basis_number` key (its value may be
the empty string); if no title cell carries the legal-basis marker, or the
input is empty, the result is the empty list; the function is total, hence
never raises. -/
theorem extract_document_basis_amended (doc : Node) :
    (∀ e ∈ extract_document_basis doc, ∃ v, ("basis_number", v) ∈ e) ∧
    ((∀ m ∈ descendants doc, isBasisTitleTd m = false) →
      extract_document_basis doc = []) ∧
    extract_document_basis emptyDoc = [] := by
  refine ⟨?_, ?_, by decide⟩
  · unfold extract_document_basis
    cases hf : findBasisInNode [] doc with
    | none => simp
    | some r =>
      cases r with
      | none => simp
      | some table =>
        dsimp only
        have hinv := basisFold_invariant (select (isElemNamed "tr") table) ([], [])
          (by simp) (Or.inl rfl)
        set st := (select (isElemNamed "tr") table).foldl basisRowStep ([], []) with hst
        by_cases hcur : st.2.isEmpty
        · simp only [hcur, if_true]
          exact hinv.1
        · simp only [hcur, Bool.false_eq_true, if_false]
          intro e he
          rcases List.mem_append.mp he with he | he
          · exact hinv.1 e he
          · rcases List.mem_singleton.mp he with rfl
            rcases hinv.2 with hnil | hkey
            · exact (hcur (by simp [hnil])).elim
            · exact hkey
  · intro h
    unfold extract_document_basis
    cases doc with
    | text s => rfl
    | comment s => rfl
    | elem name attrs cs =>
      by_cases hb : isBasisTitleTd (.elem name attrs cs)
      · rw [findBasisInNode, if_pos (by simp [hb])]
        simp [List.find?]
      · rw [findBasisInNode, if_neg (by simp [hb])]
        rw [findBasisInList_none _ cs
          (fun m hm => h m (by rw [descendants]; exact hm))]

/-- C10 witness: the amended theorem applied at the concrete documents,
with the marker-absent hypothesis discharged at the empty document. -/
theorem extract_document_basis_amended_witness :
    (∀ e ∈ extract_document_basis c10Doc, ∃ v, ("basis_number", v) ∈ e) ∧
    extract_document_basis emptyDoc = [] :=
  ⟨(extract_document_basis_amended c10Doc).1,
   (extract_document_basis_amended emptyDoc).2.1 (by decide)⟩

/-! ## C4: Department II owner extraction -/

/-- Python truthiness of a bs4 node: strings (and comments, which subclass
`str`) are falsy exactly when empty; tags are always truthy. -/
def Node.truthy : Node → Bool
  | .text s => !(s = "")
  | .comment s => !(s = "")
  | .elem _ _ _ => true

/-- ASCII decimal digit (model of the regex class `\d`). -/
def isAsciiDigit (c : Char) : Bool := '0' ≤ c && c ≤ '9'

/-- Length of the leading digit run. -/
def digitPrefixLen : List Char → Nat
  | [] => 0
  | c :: cs => if isAsciiDigit c then digitPrefixLen cs + 1 else 0

/-- Model of `re.search(r'\d{11}', s)`: does `s` contain `n` consecutive
digits somewhere? -/
def hasDigitRun (n : Nat) : List Char → Bool
  | [] => decide (n = 0)
  | c :: cs => decide (n ≤ digitPrefixLen (c :: cs)) || hasDigitRun n cs

/-- The owner-cell test of the first scan (`app/core/scraper.py`, lines
435-438): a `td` whose full text contains an 11-digit number and the
membership marker. -/
def isOwnerTd (n : Node) : Bool :=
  isElemNamed "td" n && hasDigitRun 11 (nodeText n) &&
    containsSub "CZŁONKOWSK".data (nodeText n)

/-- The `row.find('td', text=...)` predicate (line 443): it matches against
the bs4 `.string` of the `td`, which is `None` - hence no match - when the
cell's text is split over several child nodes. -/
def ownerStringMatch (n : Node) : Bool :=
  isElemNamed "td" n &&
    (match n.stringOf with
     | some s => hasDigitRun 11 s.data && containsSub "CZŁONKOWSK".data s.data
     | none => false)

/-- First matching descendant (`tag.find`). -/
def findDesc (p : Node → Bool) (n : Node) : Option Node :=
  (descendants n).find? p

mutual
/-- The scan of `soup.find_all('td')` at lines 435-438 of
`app/core/scraper.py`, recording for each matching `td` its parent row
(`td.parent`) and that row's preceding siblings in reverse order (the
`previous_sibling` chain the backfill loop walks): `prevRev` holds the
node's own preceding siblings, and in `ownerScanList` it tracks the cursor
within `parent`. -/
def ownerScanNode (prevRev : List Node) : Node → List (Node × List Node)
  | .elem nm ats cs => ownerScanList (.elem nm ats cs) prevRev [] cs
  | _ => []

def ownerScanList (parent : Node) (parentPrev prevRev : List Node) :
    List Node → List (Node × List Node)
  | [] => []
  | c :: rest =>
    ((if isOwnerTd c then [(parent, parentPrev)] else []) ++
      ownerScanNode prevRev c) ++
    ownerScanList parent parentPrev (c :: prevRev) rest
end

/-- All `(owner row, reversed previous siblings)` pairs of a document. -/
def ownerRows (doc : Node) : List (Node × List Node) :=
  ownerScanNode [] doc

/-- The message of the `NameError` raised by `isinstance(current_row, Tag)`
in the backfill loop: `Tag` is never imported in `app/core/scraper.py`. -/
def nameErrorMsg : String := "NameError: name 'Tag' is not defined"

/-- Key of the share column of an owner record. -/
def ownerKeyShare : String :=
  "Lista wskazań udziałów w prawie (numer udziału w prawie/ wielkość udziału/rodzaj wspólności)"

/-- Key of the person column of an owner record. -/
def ownerKeyPerson : String :=
  "Osoba fizyczna (Imię pierwsze nazwisko, imię ojca, imię matki, PESEL)"

/-- The owner loop of `parse_dzial_ii` (`app/core/scraper.py`, lines
441-467).  For each owner row: re-locate the owner cell through its
`.string` (skipping the row when that fails); build the record; then run
the backfill loop, which evaluates `isinstance(current_row, Tag)` as soon
as a truthy previous sibling exists - and `Tag` is not imported, so that
evaluation raises `NameError`, aborting the whole parse.  A falsy first
previous sibling is re-tested on all five iterations, so the record is
appended with no position number; likewise when there is no previous
sibling at all. -/
def dzialIIOwnerLoop : Nat → List (Node × List Node) →
    Except String (List (List (String × String)))
  | _, [] => Except.ok []
  | i, (row, prevRev) :: rest =>
    match findDesc ownerStringMatch row with
    | none => dzialIIOwnerLoop (i + 1) rest
    | some ownerInfo =>
      let record : List (String × String) :=
        [(ownerKeyShare, toString (i + 1)),
         (ownerKeyPerson, stripS ownerInfo.textS)]
      match prevRev.head? with
      | some sib =>
        if sib.truthy then Except.error nameErrorMsg
        else (dzialIIOwnerLoop (i + 1) rest).map (record :: ·)
      | none => (dzialIIOwnerLoop (i + 1) rest).map (record :: ·)

/-- The BeautifulSoup portion of `parse_dzial_ii` (lines 426-467): the
owner-record list of `content` before the JavaScript fallback and the
document-basis call, or the exception it raises. -/
def parse_dzial_ii_tables (doc : Node) : Except String (List (List (String × String))) :=
  dzialIIOwnerLoop 0 (ownerRows doc)

/-- An owner cell text: name, an 11-digit PESEL, and the membership
marker. -/
def c4Owner : String :=
  "KOWALSKI JAN, MAREK, ANNA 12345678901 WSPÓLNOŚĆ USTAWOWA MAJĄTKOWA CZŁONKOWSKA"

/-- The claim's backfill scenario: a position-number row (Lp. 1.) directly
preceding the owner row. -/
def c4Doc : Node :=
  .elem "[document]" [] [
    .elem "table" [] [
      .elem "tr" [] [.elem "td" [] [.text "Lp. 1."]],
      .elem "tr" [] [.elem "td" [] [.text c4Owner]]]]

/-- The degenerate case without any preceding sibling. -/
def c4SingleDoc : Node :=
  .elem "[document]" [] [
    .elem "table" [] [
      .elem "tr" [] [.elem "td" [] [.text c4Owner]]]]

deriving instance DecidableEq for Except

/-- C4 (code bug): on the claim's own scenario - an owner cell with a
marked position row within five rows before it - `parse_dzial_ii` raises
`NameError` , because the backfill loop uses the name `Tag` which
`app/core/scraper.py` never imports; no owner record (let alone one with a
backfilled position number) is produced.  Only when the owner row has no
preceding sibling at all does the loop complete, and then the record
carries no position number. -/
theorem parse_dzial_ii_backfill_crash :
    parse_dzial_ii_tables c4Doc = Except.error nameErrorMsg ∧
    parse_dzial_ii_tables c4SingleDoc =
      Except.ok [[(ownerKeyShare, "1"), (ownerKeyPerson, c4Owner)]] := by
  decide

/-! ## The lookup orchestration

`scrape_ekw` (`app/core/scraper.py`, lines 40-191) is modelled as a pure
function over an abstract page behaviour describing the outcome of every
browser interaction.  Fallible steps carry `Option String`: `none` for
success, `some msg` for the exception text.  Bool-returning primitives
(`click_element`, and the *local* `wait_for_element` defined at
lines 660-677, which shadows the raising one imported from
`app/utils/browser.py`) are plain booleans.
-/

/-- The inbound request (`app/models/request.py`). -/
structure KWRequest where
  kod_wydzialu : String
  numer_ksiegi_wieczystej : String
  cyfra_kontrolna : String

/-- One department section (`app/models/response.py`, `SectionData`; the
five `Dzial*` subclasses are identical pass-throughs).  The content
payload is opaque to the orchestration. -/
structure SectionData where
  content : List (String × String)
  raw_html : Option String

/-- The response model (`app/models/response.py`, `ScraperResponse`):
department fields default to `None`, so a section missing from
`sections_data` is silently absent. -/
structure ScraperResponse where
  success : Bool
  error : Option String
  kw_number : String
  dzial_io : Option SectionData
  dzial_isp : Option SectionData
  dzial_ii : Option SectionData
  dzial_iii : Option SectionData
  dzial_iv : Option SectionData

/-- Outcome of processing one department: did `click_element` succeed, and
did the parser return data or raise. -/
structure SectionOutcome where
  clickOk : Bool
  parseResult : Except String SectionData

/-- Abstract behaviour of one lookup's browser environment. -/
structure PageBehavior where
  /-- `initialize_browser` exception, if any. -/
  initExc : Option String
  /-- `navigate_to_url` exception, if any. -/
  navExc : Option String
  /-- `fill_kw_form` exception, if any. -/
  fillExc : Option String
  /-- result of `click_element(page, "#wyszukaj")`. -/
  searchClickOk : Bool
  /-- result of the local bool-returning `wait_for_element` on
  `#przyciskWydrukZwykly` - discarded by the caller. -/
  resultsAppear : Bool
  /-- exception of `page.screenshot(path="debug_results_page.png")`. -/
  resultsShotExc : Option String
  /-- result of `get_error_message` (`None`, or the joined non-empty texts). -/
  errorMessage : Option String
  /-- result of `click_element(page, "#przyciskWydrukZwykly")`. -/
  viewClickOk : Bool
  ioSec : SectionOutcome
  ispSec : SectionOutcome
  iiSec : SectionOutcome
  iiiSec : SectionOutcome
  ivSec : SectionOutcome
  /-- exception of `browser.close()` / `playwright.stop()`, if any. -/
  closeExc : Option String

/-- The identifier composed verbatim on every return path of `scrape_ekw`. -/
def kwNumberOf (r : KWRequest) : String :=
  r.kod_wydzialu ++ "/" ++ r.numer_ksiegi_wieczystej ++ "/" ++ r.cyfra_kontrolna

/-- A failure response: `success=False`, the message, the identifier, and
no department fields. -/
def failResponse (r : KWRequest) (msg : String) : ScraperResponse :=
  { success := false, error := some msg, kw_number := kwNumberOf r,
    dzial_io := none, dzial_isp := none, dzial_ii := none,
    dzial_iii := none, dzial_iv := none }

/-- Model of `process_section` (`app/core/scraper.py`, lines 282-318): a
failed click returns `None`; the section-content wait is the bool-returning
`wait_for_element`, whose result is discarded; a parser exception is caught
by the enclosing `except` and also returns `None`.  `process_section`
itself therefore never raises. -/
def process_section (o : SectionOutcome) : Option SectionData :=
  if !o.clickOk then none
  else match o.parseResult with
    | .ok d => some d
    | .error _ => none

/-- The `sections_data` dictionary: a key is present only when its section
was processed successfully. -/
structure SectionsDict where
  dzIo : Option SectionData
  dzIsp : Option SectionData
  dzIi : Option SectionData
  dzIii : Option SectionData
  dzIv : Option SectionData

/-- Model of `process_all_sections` (`app/core/scraper.py`, lines 245-279):
each of the five departments is attempted in the fixed order regardless of
earlier failures, and a department whose `process_section` returned `None`
is simply *omitted* from the dictionary.  The `except` branch that would
stamp an error section is unreachable - `process_section` swallows all
exceptions - and would itself crash on `globals()["DzialIo"]`
(the class is named with capital letters `IO`), so no error marker is ever
recorded. -/
def process_all_sections (b : PageBehavior) : SectionsDict :=
  { dzIo := process_section b.ioSec,
    dzIsp := process_section b.ispSec,
    dzIi := process_section b.iiSec,
    dzIii := process_section b.iiiSec,
    dzIv := process_section b.ivSec }

/-- Model of `clean_scraped_data` (`app/utils/html_cleaner.py`, lines
293-321) at the orchestration level: every *present* `dzial_*` value is
passed through `clean_section_data` (abstracted as `cleanFn`, since the
orchestration claims do not depend on its content transformation), and
absent keys stay absent. -/
def clean_scraped_data_dict (cleanFn : SectionData → SectionData)
    (d : SectionsDict) : SectionsDict :=
  { dzIo := d.dzIo.map cleanFn,
    dzIsp := d.dzIsp.map cleanFn,
    dzIi := d.dzIi.map cleanFn,
    dzIii := d.dzIii.map cleanFn,
    dzIv := d.dzIv.map cleanFn }

/-- The body of `scrape_ekw` after successful browser initialization
(`app/core/scraper.py`, lines 62-178).  Faithful control points:

* `accept_cookies` and the initial screenshot are try/except-wrapped and
  only logged, so they do not influence the flow;
* the results wait calls the *local* `wait_for_element` (lines 660-677),
  which returns a Bool instead of raising; the result
  (`resultsAppear`) is discarded, so the `except` branch at lines 119-139
  - the only place `get_error_message` is consulted - is reachable only
  when the debug screenshot at line 117 itself raises;
* `get_error_message` output is tested with `if error_msg:`, so an empty
  string falls through to the generic timeout message;
* `process_all_sections` never raises, so the `except` at lines 155-161 is
  dead; the cleaning step is try/except-wrapped and total here. -/
def scrapeBody (r : KWRequest) (b : PageBehavior)
    (cleanFn : SectionData → SectionData) (cleanHtml : Bool) : ScraperResponse :=
  match b.navExc with
  | some e => failResponse r ("Error navigating to EKW portal: " ++ e)
  | none =>
    match b.fillExc with
    | some e => failResponse r ("Error filling KW form: " ++ e)
    | none =>
      if !b.searchClickOk then failResponse r "Failed to click search button"
      else
        match b.resultsShotExc with
        | some _ =>
          match b.errorMessage with
          | some m =>
            if m ≠ "" then failResponse r m
            else failResponse r "Timeout waiting for search results"
          | none => failResponse r "Timeout waiting for search results"
        | none =>
          if !b.viewClickOk then
            failResponse r "Failed to click on 'Przeglądanie aktualnej treści KW' button"
          else
            let secs := process_all_sections b
            let secs := if cleanHtml then clean_scraped_data_dict cleanFn secs else secs
            { success := true, error := none, kw_number := kwNumberOf r,
              dzial_io := secs.dzIo, dzial_isp := secs.dzIsp,
              dzial_ii := secs.dzIi, dzial_iii := secs.dzIii,
              dzial_iv := secs.dzIv }

/-- Model of `close_browser` (`app/utils/browser.py`, lines 41-50):
`await browser.close(); await playwright.stop()` with *no* exception
guard - a broken session's exception propagates to the caller. -/
def close_browser (closeExc : Option String) : Except String Unit :=
  match closeExc with
  | some e => Except.error e
  | none => Except.ok ()

/-- Release bookkeeping event. -/
inductive Event where
  | released
deriving DecidableEq

/-- Model of `scrape_ekw` (`app/core/scraper.py`, lines 40-191) including
the `try/except/finally`: a failed `initialize_browser` is caught by the
outer `except` and the `finally` skips `close_browser` (`browser` is still
`None`); otherwise the body runs and the `finally` invokes `close_browser`
exactly once - whose unguarded exception would replace the body's
response.  The second component lists the `close_browser` invocations. -/
def scrape_ekw (r : KWRequest) (b : PageBehavior)
    (cleanFn : SectionData → SectionData) (cleanHtml : Bool) :
    Except String ScraperResponse × List Event :=
  match b.initExc with
  | some e => (Except.ok (failResponse r ("Error during scraping: " ++ e)), [])
  | none =>
    let resp := scrapeBody r b cleanFn cleanHtml
    match close_browser b.closeExc with
    | .error e => (Except.error e, [Event.released])
    | .ok _ => (Except.ok resp, [Event.released])

/-! ### Concrete fixtures for the orchestration claims -/

/-- A successfully parsed section. -/
def okSection : SectionOutcome :=
  { clickOk := true,
    parseResult := .ok { content := [("title", "x")], raw_html := some "<b>x</b>" } }

/-- The end-to-end example request of the spec. -/
def cReq : KWRequest :=
  { kod_wydzialu := "WA1M", numer_ksiegi_wieczystej := "00533284",
    cyfra_kontrolna := "3" }

/-- A fully successful page behaviour. -/
def okBehavior : PageBehavior :=
  { initExc := none, navExc := none, fillExc := none, searchClickOk := true,
    resultsAppear := true, resultsShotExc := none, errorMessage := none,
    viewClickOk := true, ioSec := okSection, ispSec := okSection,
    iiSec := okSection, iiiSec := okSection, ivSec := okSection,
    closeExc := none }

/-! ## C1: a failed department is dropped, not error-marked -/

/-- Department III's parser throws; everything else succeeds. -/
def c1Behavior : PageBehavior :=
  { okBehavior with
    iiiSec := { clickOk := true, parseResult := .error "simulated malformed table" } }

/-- C1 (failing-input evaluation): when department III's parser throws and
the other four departments succeed, the lookup continues and succeeds, but
the returned result contains *no* `dzial_iii` at all - no SectionDocument
with a non-empty `extraction_error`, contrary to the claim.
`process_section` swallows the parser exception into `None`
(scraper.py line 318) and `process_all_sections` omits `None` sections
(line 268), so the error-stamping `except` branch at lines 270-277 is
unreachable (and would itself crash on `globals()["DzialIo"]`). -/
theorem dzial_iii_error_dropped :
    (scrape_ekw cReq c1Behavior id false).1.map (fun resp =>
      (resp.success, resp.dzial_iii, resp.dzial_io.isSome, resp.dzial_isp.isSome,
       resp.dzial_ii.isSome, resp.dzial_iv.isSome)) =
    Except.ok (true, none, true, true, true, true) := rfl

/-! ## C2: the success/sections invariant -/

/-- Department III's control click fails; everything else succeeds. -/
def c2Behavior : PageBehavior :=
  { okBehavior with
    iiiSec := { clickOk := false,
                parseResult := .ok { content := [], raw_html := none } } }

/-- C2 (counterexample): a lookup in which one department's control click
fails still returns `success = true`, but with that department's key
absent (`None`) - so `success = true` does *not* imply all five
department keys are present. -/
theorem success_without_all_sections_counterexample :
    (scrape_ekw cReq c2Behavior id false).1.map (fun resp =>
      (resp.success, resp.dzial_iii.isSome, resp.dzial_io.isSome)) =
    Except.ok (true, false, true) := rfl

/-- Did the section's click succeed and its parser return data? -/
def sectionSucceeded (o : SectionOutcome) : Bool :=
  o.clickOk && o.parseResult.isOk

theorem process_section_isSome (o : SectionOutcome) :
    (process_section o).isSome = sectionSucceeded o := by
  unfold process_section sectionSucceeded
  cases hc : o.clickOk <;> cases hp : o.parseResult <;>
    simp [Except.isOk, Except.toBool, hp]

/-- A non-empty string prefixed to anything stays non-empty. -/
theorem prefixed_ne_empty (p e : String) (hp : p.data ≠ []) : p ++ e ≠ "" := by
  intro h
  apply hp
  have hd : p.data ++ e.data = ([] : List Char) := congrArg String.data h
  exact (List.append_eq_nil.mp hd).1

/-- Both invariant conjuncts for a failure response. -/
theorem failResponse_invariant (r : KWRequest) (m : String) (hm : m ≠ "") (P : Prop) :
    ((failResponse r m).success = false →
      (failResponse r m).dzial_io = none ∧ (failResponse r m).dzial_isp = none ∧
      (failResponse r m).dzial_ii = none ∧ (failResponse r m).dzial_iii = none ∧
      (failResponse r m).dzial_iv = none ∧
      ∃ m', (failResponse r m).error = some m' ∧ m' ≠ "") ∧
    ((failResponse r m).success = true → P) := by
  constructor
  · intro _
    exact ⟨rfl, rfl, rfl, rfl, rfl, m, rfl, hm⟩
  · intro h'
    simp [failResponse] at h'

/-- The C2 invariant for the body of one lookup. -/
theorem scrapeBody_invariant (r : KWRequest) (b : PageBehavior)
    (cleanFn : SectionData → SectionData) (cleanHtml : Bool) :
    ((scrapeBody r b cleanFn cleanHtml).success = false →
      (scrapeBody r b cleanFn cleanHtml).dzial_io = none ∧
      (scrapeBody r b cleanFn cleanHtml).dzial_isp = none ∧
      (scrapeBody r b cleanFn cleanHtml).dzial_ii = none ∧
      (scrapeBody r b cleanFn cleanHtml).dzial_iii = none ∧
      (scrapeBody r b cleanFn cleanHtml).dzial_iv = none ∧
      ∃ m, (scrapeBody r b cleanFn cleanHtml).error = some m ∧ m ≠ "") ∧
    ((scrapeBody r b cleanFn cleanHtml).success = true →
      (scrapeBody r b cleanFn cleanHtml).dzial_io.isSome = sectionSucceeded b.ioSec ∧
      (scrapeBody r b cleanFn cleanHtml).dzial_isp.isSome = sectionSucceeded b.ispSec ∧
      (scrapeBody r b cleanFn cleanHtml).dzial_ii.isSome = sectionSucceeded b.iiSec ∧
      (scrapeBody r b cleanFn cleanHtml).dzial_iii.isSome = sectionSucceeded b.iiiSec ∧
      (scrapeBody r b cleanFn cleanHtml).dzial_iv.isSome = sectionSucceeded b.ivSec) := by
  obtain ⟨initE, navE, fillE, sClick, rApp, rShot, errMsg, vClick, s1, s2, s3, s4, s5, clE⟩ := b
  unfold scrapeBody
  dsimp only
  cases navE with
  | some e =>
    exact failResponse_invariant r _
      (prefixed_ne_empty "Error navigating to EKW portal: " e (by decide)) _
  | none =>
  dsimp only
  cases fillE with
  | some e =>
    exact failResponse_invariant r _
      (prefixed_ne_empty "Error filling KW form: " e (by decide)) _
  | none =>
  dsimp only
  cases sClick with
  | false =>
    rw [if_pos (by decide)]
    exact failResponse_invariant r _ (by decide) _
  | true =>
  rw [if_neg (by decide)]
  cases rShot with
  | some e =>
    dsimp only
    cases errMsg with
    | some m =>
      dsimp only
      by_cases hm : m = ""
      · rw [if_neg (fun hne => hne hm)]
        exact failResponse_invariant r _ (by decide) _
      · rw [if_pos hm]
        exact failResponse_invariant r _ hm _
    | none =>
      dsimp only
      exact failResponse_invariant r _ (by decide) _
  | none =>
  dsimp only
  cases vClick with
  | false =>
    rw [if_pos (by decide)]
    exact failResponse_invariant r _ (by decide) _
  | true =>
  rw [if_neg (by decide)]
  constructor
  · intro h'
    exact absurd h' (by simp)
  · intro _
    cases cleanHtml <;>
      simp [clean_scraped_data_dict, process_all_sections, process_section_isSome,
        Option.isSome_map']

/-- C2 (amended): for every result actually returned by `scrape_ekw`:
`success = false` implies no department section is present and the error is
a non-empty string; `success = true` implies a department key is present
*exactly when* that department's control click succeeded and its parser
returned - a failed department is silently absent (`None`), it does not
carry an `extraction_error`. -/
theorem response_invariant (r : KWRequest) (b : PageBehavior)
    (cleanFn : SectionData → SectionData) (cleanHtml : Bool) (resp : ScraperResponse)
    (h : (scrape_ekw r b cleanFn cleanHtml).1 = Except.ok resp) :
    (resp.success = false →
      resp.dzial_io = none ∧ resp.dzial_isp = none ∧ resp.dzial_ii = none ∧
      resp.dzial_iii = none ∧ resp.dzial_iv = none ∧
      ∃ m, resp.error = some m ∧ m ≠ "") ∧
    (resp.success = true →
      resp.dzial_io.isSome = sectionSucceeded b.ioSec ∧
      resp.dzial_isp.isSome = sectionSucceeded b.ispSec ∧
      resp.dzial_ii.isSome = sectionSucceeded b.iiSec ∧
      resp.dzial_iii.isSome = sectionSucceeded b.iiiSec ∧
      resp.dzial_iv.isSome = sectionSucceeded b.ivSec) := by
  unfold scrape_ekw at h
  cases hinit : b.initExc with
  | some e =>
    rw [hinit] at h
    simp only [Except.ok.injEq] at h
    subst h
    exact failResponse_invariant r _
      (prefixed_ne_empty "Error during scraping: " e (by decide)) _
  | none =>
    rw [hinit] at h
    unfold close_browser at h
    cases hcl : b.closeExc with
    | some e =>
      rw [hcl] at h
      simp at h
    | none =>
      rw [hcl] at h
      simp only [Except.ok.injEq] at h
      subst h
      exact scrapeBody_invariant r b cleanFn cleanHtml

/-- C2 witness: the amended invariant applied to the all-successful
behaviour, with the returned-response hypothesis discharged by
computation. -/
theorem response_invariant_witness :
    (scrapeBody cReq okBehavior id true).dzial_io.isSome =
      sectionSucceeded okBehavior.ioSec ∧
    (scrapeBody cReq okBehavior id true).dzial_iii.isSome =
      sectionSucceeded okBehavior.iiiSec := by
  have h := (response_invariant cReq okBehavior id true
    (scrapeBody cReq okBehavior id true) rfl).2 (by rfl)
  exact ⟨h.1, h.2.2.2.1⟩

/-! ## C3: the search-error branch is dead -/

/-- The results indicator never appears, and the page shows a not-found
message - the claim's scenario.  The debug screenshot succeeds. -/
def c3BehaviorMissed : PageBehavior :=
  { okBehavior with
    resultsAppear := false
    errorMessage := some "Invalid KW number" }

/-- Same, but the debug screenshot at scraper.py line 117 throws -
the only way the error-message branch can run. -/
def c3BehaviorShotFail : PageBehavior :=
  { okBehavior with
    resultsAppear := false
    errorMessage := some "Invalid KW number"
    resultsShotExc := some "screenshot failed" }

/-- C3 (failing-input evaluation): when the results indicator does not
appear and a known error selector holds "Invalid KW number", the lookup
does *not* terminate with `success = false` and that message - it
proceeds, clicks the view button and returns `success = true` with no
error.  The local `wait_for_element` (scraper.py lines 660-677) returns
`False` instead of raising, the caller discards that result (line 113), so
the `except` branch consulting `get_error_message` (lines 119-139) runs
only if the debug screenshot itself raises, as the second conjunct shows.
The repository's own test (`test_scrape_ekw_error`) mocks
`wait_for_element` to raise, an API the shadowing local definition does
not have. -/
theorem search_error_branch_dead :
    (scrape_ekw cReq c3BehaviorMissed id false).1.map
      (fun resp => (resp.success, resp.error)) = Except.ok (true, none) ∧
    (scrape_ekw cReq c3BehaviorShotFail id false).1.map
      (fun resp => (resp.success, resp.error)) =
      Except.ok (false, some "Invalid KW number") :=
  ⟨rfl, rfl⟩

/-! ## C7: the canonical identifier -/

/-- The values `fill_kw_form` (`app/core/scraper.py`, lines 194-209)
submits into the three form fields: the request fields verbatim - no
leading-zero stripping happens here. -/
def fill_kw_form_values (r : KWRequest) : String × String × String :=
  (r.kod_wydzialu, r.numer_ksiegi_wieczystej, r.cyfra_kontrolna)

/-- Model of `kw_info['nr'].lstrip('0')` - the one place leading zeros are
stripped, inside the restart-and-resubmit fallback of `click_element`
(`app/utils/browser.py`, line 429), i.e. on a search-form resubmission. -/
def lstripZeros (n : String) : String := ⟨n.data.dropWhile (fun c => c = '0')⟩

theorem scrapeBody_kw_number (r : KWRequest) (b : PageBehavior)
    (cleanFn : SectionData → SectionData) (cleanHtml : Bool) :
    (scrapeBody r b cleanFn cleanHtml).kw_number = kwNumberOf r := by
  obtain ⟨initE, navE, fillE, sClick, rApp, rShot, errMsg, vClick, s1, s2, s3, s4, s5, clE⟩ := b
  unfold scrapeBody
  dsimp only
  cases navE with
  | some e => rfl
  | none =>
  dsimp only
  cases fillE with
  | some e => rfl
  | none =>
  dsimp only
  cases sClick with
  | false => rw [if_pos (by decide)]; rfl
  | true =>
  rw [if_neg (by decide)]
  cases rShot with
  | some e =>
    dsimp only
    cases errMsg with
    | some m =>
      dsimp only
      by_cases hm : m = ""
      · rw [if_neg (fun hne => hne hm)]; rfl
      · rw [if_pos hm]; rfl
    | none => rfl
  | none =>
  dsimp only
  cases vClick with
  | false => rw [if_pos (by decide)]; rfl
  | true => rw [if_neg (by decide)]

/-- C7: on *every* outcome (success or any failure) the identifier in the
returned result is composed verbatim as
`kod_wydzialu / numer_ksiegi_wieczystej / cyfra_kontrolna`, keeping any
leading zeros; the primary form fill submits the fields verbatim as well,
and the only leading-zero stripping in the code base (`lstrip('0')`) sits
in the search-form resubmission fallback - never in the identifier. -/
theorem compose_identifier_verbatim (r : KWRequest) (b : PageBehavior)
    (cleanFn : SectionData → SectionData) (cleanHtml : Bool) :
    (scrapeBody r b cleanFn cleanHtml).kw_number =
      r.kod_wydzialu ++ "/" ++ r.numer_ksiegi_wieczystej ++ "/" ++ r.cyfra_kontrolna ∧
    (∀ resp, (scrape_ekw r b cleanFn cleanHtml).1 = Except.ok resp →
      resp.kw_number =
        r.kod_wydzialu ++ "/" ++ r.numer_ksiegi_wieczystej ++ "/" ++ r.cyfra_kontrolna) ∧
    fill_kw_form_values r = (r.kod_wydzialu, r.numer_ksiegi_wieczystej, r.cyfra_kontrolna) := by
  refine ⟨scrapeBody_kw_number r b cleanFn cleanHtml, ?_, rfl⟩
  intro resp h
  unfold scrape_ekw at h
  cases hinit : b.initExc with
  | some e =>
    rw [hinit] at h
    simp only [Except.ok.injEq] at h
    subst h
    rfl
  | none =>
    rw [hinit] at h
    unfold close_browser at h
    cases hcl : b.closeExc with
    | some e =>
      rw [hcl] at h
      simp at h
    | none =>
      rw [hcl] at h
      simp only [Except.ok.injEq] at h
      subst h
      exact scrapeBody_kw_number r b cleanFn cleanHtml

/-- C7 witness: the identifier of the spec's example request, on both a
successful lookup and a returned-response instance, with the hypothesis
discharged by computation. -/
theorem compose_identifier_verbatim_witness :
    (scrapeBody cReq okBehavior id true).kw_number = "WA1M/00533284/3" ∧
    lstripZeros "00533284" = "533284" := by
  constructor
  · have h := (compose_identifier_verbatim cReq okBehavior id true).2.1
      (scrapeBody cReq okBehavior id true) rfl
    exact h.trans (by decide)
  · decide

/-! ## C8: session release -/

/-- A behaviour whose browser session is broken at teardown. -/
def c8Behavior : PageBehavior :=
  { okBehavior with closeExc := some "Browser closed unexpectedly" }

/-- C8 (counterexample): `close_browser` has no exception guard, so with a
broken session its exception propagates - out of `scrape_ekw`'s `finally`,
replacing the response - contradicting the claim that the release
operation never throws. -/
theorem close_browser_throws_counterexample :
    close_browser (some "Browser closed unexpectedly") =
      Except.error "Browser closed unexpectedly" ∧
    (scrape_ekw cReq c8Behavior id false).1 =
      Except.error "Browser closed unexpectedly" :=
  ⟨rfl, rfl⟩

/-- C8 (amended): `close_browser` is invoked exactly once on every exit
path on which session acquisition succeeded, and not at all when
acquisition failed; but the release is not exception-safe: `close_browser`
has no guard, so when the underlying close raises, the exception escapes
`scrape_ekw` in place of its response. -/
theorem session_release_amended (r : KWRequest) (b : PageBehavior)
    (cleanFn : SectionData → SectionData) (cleanHtml : Bool) :
    ((scrape_ekw r b cleanFn cleanHtml).2 =
      if b.initExc = none then [Event.released] else []) ∧
    (b.initExc = none → ∀ e, b.closeExc = some e →
      (scrape_ekw r b cleanFn cleanHtml).1 = Except.error e) := by
  constructor
  · unfold scrape_ekw
    cases hinit : b.initExc with
    | some e => simp
    | none =>
      unfold close_browser
      cases hcl : b.closeExc <;> simp
  · intro hinit e hcl
    unfold scrape_ekw close_browser
    rw [hinit, hcl]

/-- C8 witness: the amended theorem at concrete behaviours - one release
on the successful path, and the propagated close exception on the broken
path. -/
theorem session_release_amended_witness :
    (scrape_ekw cReq okBehavior id true).2 = [Event.released] ∧
    (scrape_ekw cReq c8Behavior id false).1 =
      Except.error "Browser closed unexpectedly" := by
  constructor
  · have h := (session_release_amended cReq okBehavior id true).1
    simpa using h
  · exact (session_release_amended cReq c8Behavior id false).2 rfl _ rfl

/-! ## C6: the HTML normalizer `clean_html_content`

`clean_html_content` (`app/utils/html_cleaner.py`, lines 324-374) parses
the input with BeautifulSoup/html.parser, removes script/style/meta/link/
iframe elements, string nodes that strip-start with a comment opener,
hidden and empty elements, normalizes whitespace in text nodes, serializes,
and collapses runs of three or more newlines; on a parse failure it falls
back to whitespace-collapsing the raw text.

The parser model below follows html.parser/bs4: tag and attribute names
are lowercased, character references are decoded (the entity subset of
`pyUnescape`), unmatched end tags are dropped, open elements are closed at
end of input, void elements take no children, and text between tags
arrives as one merged string node.  Declarations and processing
instructions are modelled as comment nodes, and the script/style raw-text
mode is not modelled; neither affects the inputs below. -/

inductive Tok where
  | startTag (name : String) (attrs : List (String × Option String)) (selfClosing : Bool)
  | endTag (name : String)
  | chars (s : String)
  | commentTok (s : String)

def isNameStartChar (c : Char) : Bool := c.isAlpha

def isNameChar (c : Char) : Bool :=
  c.isAlpha || c.isDigit || c = '-' || c = '_' || c = '.' || c = ':'

def toLowerStr (l : List Char) : List Char := l.map Char.toLower

/-- Split at the first occurrence of `pat`: `some (before, after)` with
`pat` removed, `none` when absent. -/
def splitOnPat (pat : List Char) : List Char → Option (List Char × List Char)
  | [] => if pat.isEmpty then some ([], []) else none
  | c :: cs =>
    if pat.isPrefixOf (c :: cs) then some ([], (c :: cs).drop pat.length)
    else match splitOnPat pat cs with
      | some (pre, post) => some (c :: pre, post)
      | none => none

/-- First occurrence of an attribute name wins, as in a parsed tag. -/
def dedupAttrs : List (String × Option String) → List (String × Option String)
  | [] => []
  | (k, v) :: rest => (k, v) :: (dedupAttrs rest).filter (fun p => !(p.1 = k))

/-- Attribute scanner of a start tag: returns the attributes, the
self-closing flag, and the input after the closing angle bracket.  The
fuel argument only bounds the recursion; it is instantiated so that it
never runs out. -/
def scanAttrs : Nat → List Char → List (String × Option String) × Bool × List Char
  | 0, l => ([], false, l)
  | fuel + 1, l =>
    let l1 := l.dropWhile isPyWs
    match l1 with
    | [] => ([], false, [])
    | '>' :: rest => ([], false, rest)
    | '/' :: '>' :: rest => ([], true, rest)
    | '/' :: rest => scanAttrs fuel rest
    | _ =>
      let name := l1.takeWhile (fun c => !(isPyWs c || c = '=' || c = '>' || c = '/'))
      if name.isEmpty then scanAttrs fuel (l1.drop 1)
      else
        let l2 := (l1.drop name.length).dropWhile isPyWs
        match l2 with
        | '=' :: l3 =>
          let l4 := l3.dropWhile isPyWs
          match l4 with
          | '"' :: l5 =>
            let v := l5.takeWhile (fun c => !(c = '"'))
            let l6 := (l5.dropWhile (fun c => !(c = '"'))).drop 1
            let (ats, sc, rest) := scanAttrs fuel l6
            ((⟨toLowerStr name⟩, some ⟨pyUnescape v⟩) :: ats, sc, rest)
          | '\'' :: l5 =>
            let v := l5.takeWhile (fun c => !(c = '\''))
            let l6 := (l5.dropWhile (fun c => !(c = '\''))).drop 1
            let (ats, sc, rest) := scanAttrs fuel l6
            ((⟨toLowerStr name⟩, some ⟨pyUnescape v⟩) :: ats, sc, rest)
          | _ =>
            let v := l4.takeWhile (fun c => !(isPyWs c || c = '>'))
            let (ats, sc, rest) := scanAttrs fuel (l4.drop v.length)
            ((⟨toLowerStr name⟩, some ⟨pyUnescape v⟩) :: ats, sc, rest)
        | _ =>
          let (ats, sc, rest) := scanAttrs fuel l2
          ((⟨toLowerStr name⟩, none) :: ats, sc, rest)

/-- The tokenizer.  Each step consumes at least one character, so fuel
`length + 1` suffices. -/
def tokenizeF : Nat → List Char → List Tok
  | 0, _ => []
  | fuel + 1, l =>
    match l with
    | [] => []
    | '<' :: rest =>
      match rest with
      | '!' :: '-' :: '-' :: r =>
        match splitOnPat "-->".data r with
        | some (content, r2) => .commentTok ⟨content⟩ :: tokenizeF fuel r2
        | none => [.commentTok ⟨r⟩]
      | '!' :: r =>
        let content := r.takeWhile (fun c => !(c = '>'))
        let r2 := (r.dropWhile (fun c => !(c = '>'))).drop 1
        .commentTok ⟨content⟩ :: tokenizeF fuel r2
      | '?' :: r =>
        let content := r.takeWhile (fun c => !(c = '>'))
        let r2 := (r.dropWhile (fun c => !(c = '>'))).drop 1
        .commentTok ⟨content⟩ :: tokenizeF fuel r2
      | '/' :: r =>
        let name := r.takeWhile isNameChar
        if name.isEmpty then
          tokenizeF fuel ((r.dropWhile (fun c => !(c = '>'))).drop 1)
        else
          let r2 := ((r.drop name.length).dropWhile (fun c => !(c = '>'))).drop 1
          .endTag ⟨toLowerStr name⟩ :: tokenizeF fuel r2
      | c :: r =>
        if isNameStartChar c then
          let name := (c :: r).takeWhile isNameChar
          let r1 := (c :: r).drop name.length
          let (ats, selfC, r2) := scanAttrs (r1.length + 1) r1
          .startTag ⟨toLowerStr name⟩ (dedupAttrs ats) selfC :: tokenizeF fuel r2
        else
          .chars "<" :: tokenizeF fuel rest
      | [] => [.chars "<"]
    | _ =>
      let txt := l.takeWhile (fun c => !(c = '<'))
      let rest := l.dropWhile (fun c => !(c = '<'))
      .chars ⟨pyUnescape txt⟩ :: tokenizeF fuel rest

def tokenize (l : List Char) : List Tok := tokenizeF (l.length + 1) l

/-- The void (empty-element) tags of the html.parser tree builder. -/
def voidNames : List String :=
  ["area", "base", "br", "col", "embed", "hr", "img", "input", "link", "meta",
   "param", "source", "track", "wbr"]

/-- One open element on the tree-builder stack: its name, attributes, and
the sibling list accumulated *before* it was opened. -/
structure BFrame where
  name : String
  attrs : List (String × Option String)
  acc : List Node

/-- Close open elements down to the first frame named `name`
(bs4's `_popToTag`); `none` when no such frame exists. -/
def popTo (name : String) : List Node → List BFrame → Option (List Node × List BFrame)
  | _, [] => none
  | acc, f :: fs =>
    if f.name = name then some (f.acc ++ [Node.elem f.name f.attrs acc], fs)
    else popTo name (f.acc ++ [Node.elem f.name f.attrs acc]) fs

/-- Close every remaining open element at end of input. -/
def closeAll : List Node → List BFrame → List Node
  | acc, [] => acc
  | acc, f :: fs => closeAll (f.acc ++ [Node.elem f.name f.attrs acc]) fs

def buildToks : List Tok → List Node → List BFrame → List Node
  | [], acc, stack => closeAll acc stack
  | t :: ts, acc, stack =>
    match t with
    | .chars s => buildToks ts (acc ++ [Node.text s]) stack
    | .commentTok s => buildToks ts (acc ++ [Node.comment s]) stack
    | .startTag nm ats sc =>
      if voidNames.contains nm || sc then buildToks ts (acc ++ [Node.elem nm ats []]) stack
      else buildToks ts [] ({ name := nm, attrs := ats, acc := acc } :: stack)
    | .endTag nm =>
      match popTo nm acc stack with
      | some (acc2, st2) => buildToks ts acc2 st2
      | none => buildToks ts acc stack

/-- Parse an HTML string into the children of the `[document]` node. -/
def parseHtml (s : String) : List Node := buildToks (tokenize s.data) [] []

/-- The element names decomposed outright
(`soup(['script', 'style', 'meta', 'link', 'iframe'])`). -/
def badNames : List String := ["script", "style", "meta", "link", "iframe"]

mutual
/-- Step 1: decompose script/style/meta/link/iframe subtrees. -/
def removeBadNode : Node → Node
  | .elem nm ats cs => .elem nm ats (removeBadList cs)
  | n => n

def removeBadList : List Node → List Node
  | [] => []
  | n :: rest =>
    (match n with
     | .elem nm _ _ => if badNames.contains nm then [] else [removeBadNode n]
     | other => [other]) ++ removeBadList rest
end

/-- The pseudo-comment filter of step 2: a string node whose stripped
content starts with the comment opener.  (Actual `Comment` nodes carry
their *content*, which does not include the opener, so ordinary comments
are not matched - but a plain-text node can be.) -/
def startsWithPseudoComment (s : String) : Bool :=
  "<!--".data.isPrefixOf (stripWs s.data)

mutual
/-- Step 2: extract string nodes that strip-start with a comment opener. -/
def removePseudoNode : Node → Node
  | .elem nm ats cs => .elem nm ats (removePseudoList cs)
  | n => n

def removePseudoList : List Node → List Node
  | [] => []
  | n :: rest =>
    (match n with
     | .text s => if startsWithPseudoComment s then [] else [Node.text s]
     | .comment s => if startsWithPseudoComment s then [] else [Node.comment s]
     | other => [removePseudoNode other]) ++ removePseudoList rest
end

/-- Step 3's test: a `style` attribute containing `display:none`. -/
def isHiddenElem (n : Node) : Bool :=
  match n.attr "style" with
  | some (some v) => containsSub "display:none".data v.data
  | _ => false

mutual
/-- Step 3: decompose elements styled `display:none`. -/
def removeHiddenNode : Node → Node
  | .elem nm ats cs => .elem nm ats (removeHiddenList cs)
  | n => n

def removeHiddenList : List Node → List Node
  | [] => []
  | n :: rest =>
    (match n with
     | .elem _ _ _ => if isHiddenElem n then [] else [removeHiddenNode n]
     | other => [other]) ++ removeHiddenList rest
end

/-- Step 4's test (`app/utils/html_cleaner.py`, lines 354-357): an element
whose whole text is whitespace (`get_text(strip=True)` empty), with no
`img` descendant, and not itself a void-ish keeper. -/
def isRemovableEmpty (n : Node) : Bool :=
  match n with
  | .elem nm _ _ =>
    (nodeText n).all isPyWs && !((descendants n).any (isElemNamed "img")) &&
      !(["br", "hr", "img", "input", "meta"].contains nm)
  | _ => false

mutual
/-- Step 4: decompose structurally empty elements.  Each element is judged
on its original subtree (document order puts ancestors first, so earlier
removals never affect a later judgement). -/
def removeEmptyNode : Node → Node
  | .elem nm ats cs => .elem nm ats (removeEmptyList cs)
  | n => n

def removeEmptyList : List Node → List Node
  | [] => []
  | n :: rest =>
    (match n with
     | .elem _ _ _ => if isRemovableEmpty n then [] else [removeEmptyNode n]
     | other => [other]) ++ removeEmptyList rest
end

/-- Step 5's text rewrite: `re.sub(r'\s+', ' ', text.strip())`. -/
def normStr (s : String) : String := ⟨collapseWs (stripWs s.data)⟩

mutual
/-- Step 5: normalize every string node whose direct parent is not
style/script/pre/code (style and script are already gone).  `replace_with`
turns comments into plain text nodes, so a comment outside pre/code
degrades to its bare content. -/
def normTextNode : Node → Node
  | .elem nm ats cs =>
    .elem nm ats (normTextList
      (nm = "style" || nm = "script" || nm = "pre" || nm = "code") cs)
  | n => n

def normTextList (skip : Bool) : List Node → List Node
  | [] => []
  | n :: rest =>
    (match n with
     | .text s => if skip then Node.text s else Node.text (normStr s)
     | .comment s => if skip then Node.comment s else Node.text (normStr s)
     | other => normTextNode other) :: normTextList skip rest
end

/-- Steps 1-5 in source order; the top-level parent is the `[document]`
node, which is not a skip parent. -/
def cleanTree (roots : List Node) : List Node :=
  normTextList false (removeEmptyList (removeHiddenList (removePseudoList
    (removeBadList roots))))

/-- bs4 minimal-formatter text escaping. -/
def escTextChar (c : Char) : List Char :=
  if c = '&' then "&amp;".data
  else if c = '<' then "&lt;".data
  else if c = '>' then "&gt;".data
  else [c]

/-- bs4 attribute-value escaping (double-quoted). -/
def escAttrChar (c : Char) : List Char :=
  if c = '&' then "&amp;".data
  else if c = '<' then "&lt;".data
  else if c = '>' then "&gt;".data
  else if c = '"' then "&quot;".data
  else [c]

def serAttr : String × Option String → List Char
  | (k, some v) => ' ' :: (k.data ++ '=' :: '"' :: (v.data.flatMap escAttrChar ++ ['"']))
  | (k, none) => ' ' :: k.data

def serAttrs (ats : List (String × Option String)) : List Char :=
  ats.foldr (fun a acc => serAttr a ++ acc) []

mutual
/-- `str(soup)`: serialization with minimal escaping; void elements render
self-closed. -/
def serNode : Node → List Char
  | .text s => s.data.flatMap escTextChar
  | .comment s => "<!--".data ++ s.data ++ "-->".data
  | .elem nm ats cs =>
    if voidNames.contains nm then
      '<' :: (nm.data ++ serAttrs ats ++ "/>".data)
    else
      ('<' :: (nm.data ++ serAttrs ats ++ ['>'])) ++ serList cs ++
        ("</".data ++ nm.data ++ ['>'])

def serList : List Node → List Char
  | [] => []
  | n :: rest => serNode n ++ serList rest
end

/-- `re.sub(r'\n{3,}', '\n\n', s)`: runs of three or more newlines become
exactly two. -/
def nlAux : Nat → List Char → List Char
  | k, [] => List.replicate (min k 2) '\n'
  | k, c :: cs =>
    if c = '\n' then nlAux (k + 1) cs
    else List.replicate (min k 2) '\n' ++ c :: nlAux 0 cs

def collapseNL3 (l : List Char) : List Char := nlAux 0 l

/-- Model of `clean_html_content` (`app/utils/html_cleaner.py`, lines
324-374): empty (falsy) input returns the empty string; otherwise parse,
clean, serialize, and collapse newline runs.  The model is total - the
`except` fallback corresponds to resource exhaustion inside the Python
parser and is modelled separately as `clean_html_fallback`. -/
def clean_html_content (s : String) : String :=
  if s = "" then ""
  else ⟨collapseNL3 (serList (cleanTree (parseHtml s)))⟩

/-- The `except` branch of `clean_html_content`:
`re.sub(r'\s+', ' ', html_content).strip()`. -/
def clean_html_fallback (s : String) : String := ⟨stripWs (collapseWs s.data)⟩

/-- C6 (counterexample): `clean_html_content` is *not* idempotent.
Removing the empty `b` element joins the text pieces `<` (from the
character reference) and `!--hello`; the first pass serializes them as
`&lt;!--hello`, which the second pass parses as the single string
`<!--hello` - and the pseudo-comment filter
(`text.strip().startswith('<!--')`, line 346) then deletes it, giving the
empty string. -/
theorem clean_html_content_idempotent_counterexample :
    clean_html_content "&lt;<b></b>!--hello" = "&lt;!--hello" ∧
    clean_html_content (clean_html_content "&lt;<b></b>!--hello") = "" ∧
    clean_html_content (clean_html_content "&lt;<b></b>!--hello") ≠
      clean_html_content "&lt;<b></b>!--hello" := by
  decide

/-- C6 (amended): the normalizer never raises - the structured path is
total, and when structured parsing fails it returns the raw text with
whitespace runs collapsed to single spaces and the ends stripped; that
fallback *is* idempotent, and so is the structured path on ordinary markup
(illustrated on a concrete document); but structured-path idempotence
fails in general, because removing an element can join adjacent text
pieces into one that strip-starts with a comment opener, which the second
pass deletes. -/
theorem clean_html_content_amended (s : String) :
    clean_html_fallback (clean_html_fallback s) = clean_html_fallback s ∧
    clean_html_fallback s = ⟨stripWs (collapseWs s.data)⟩ ∧
    clean_html_content "" = "" ∧
    clean_html_content (clean_html_content "<div> a  &amp; <BR>b </div>") =
      clean_html_content "<div> a  &amp; <BR>b </div>" := by
  refine ⟨?_, rfl, rfl, by decide⟩
  show (⟨stripWs (collapseWs (String.data ⟨stripWs (collapseWs s.data)⟩))⟩ : String) = _
  have hc : (stripWs (collapseWs s.data)).Chain'
      (fun a b => ¬(isPyWs a = true ∧ isPyWs b = true)) :=
    stripWs_chain' (collapseWsAux_chain' false s.data)
  have hh := stripWs_head (collapseWs s.data)
  have hl := stripWs_getLast (collapseWs s.data)
  have hsp : ∀ c ∈ stripWs (collapseWs s.data), isPyWs c = true → c = ' ' :=
    fun c hcm hw => collapseWsAux_ws_space false s.data c (stripWs_sub _ c hcm) hw
  show (⟨stripWs (collapseWs (stripWs (collapseWs s.data)))⟩ : String) = _
  rw [collapseWs_fixed hc hsp, stripWs_fixed hh hl]
  rfl
